import Mathlib

/-!
Verification development for the Moonsec deobfuscator HTTP backend
(`server.py`).  The Python source is shallowly embedded: the pure text
formatter `format_output` becomes a function on `List Char`, and the
`/deobfuscate` endpoint becomes a pure function of the parsed request body
together with an environment oracle describing the filesystem, the build
step and the external tool run.  The response and an effect trace
(temp-file creation/deletion, build attempts, tool invocation) are returned
explicitly.
-/

/-! ## Python string primitives

`str.rstrip()` / `str.strip()` with no arguments remove the usual
whitespace characters; we model the ASCII whitespace set.  `str.split('\n')`
and `'\n'.join` are modelled by `splitNl` / `joinNl` with Python's
semantics (`splitNl [] = [[]]`, a trailing separator yields a final empty
segment). -/

def pyIsSpace (c : Char) : Bool :=
  c = ' ' || c = '\t' || c = '\n' || c = '\r' || c = '\x0b' || c = '\x0c'

/-- `line.rstrip()`: drop trailing whitespace. -/
def pyRstripL (l : List Char) : List Char :=
  (l.reverse.dropWhile pyIsSpace).reverse

/-- `line.lstrip()`: drop leading whitespace. -/
def pyLstripL (l : List Char) : List Char :=
  l.dropWhile pyIsSpace

/-- `line.strip()`: drop whitespace at both ends. -/
def pyStripL (l : List Char) : List Char :=
  pyLstripL (pyRstripL l)

/-- `content.split('\n')` on character lists. -/
def splitNl : List Char → List (List Char)
  | [] => [[]]
  | c :: cs =>
    if c = '\n' then [] :: splitNl cs
    else
      match splitNl cs with
      | [] => [[c]]
      | l :: ls => (c :: l) :: ls

/-- `'\n'.join(lines)` on character lists. -/
def joinNl : List (List Char) → List Char
  | [] => []
  | [l] => l
  | l :: ls => l ++ '\n' :: joinNl ls

/-- `content.replace(src, rep)` when `src` is a single character
(the only uses in `format_output`). -/
def replaceChar (src : Char) (rep : List Char) (l : List Char) : List Char :=
  l.flatMap (fun c => if c = src then rep else [c])

/-! ## `format_output` (server.py lines 222-246) -/

/-- Disassembly branch of `format_output`: for each line keep
`line.rstrip()` when nonempty. -/
def formatDisassembly (content : List Char) : List Char :=
  joinNl ((splitNl content).filterMap (fun line =>
    let r := pyRstripL line
    if r.isEmpty then none else some r))

/-- The three `replace` passes of the bytecode branch:
`;` ↦ `;\n`, `{` ↦ `{\n`, `}` ↦ `\n}`. -/
def expandBytecode (content : List Char) : List Char :=
  replaceChar '}' ['\n', '}']
    (replaceChar '{' ['{', '\n']
      (replaceChar ';' [';', '\n'] content))

/-- `lines = [line.rstrip() for line in lines if line.strip()]`. -/
def keptLines (lines : List (List Char)) : List (List Char) :=
  (lines.filter (fun l => !(pyStripL l).isEmpty)).map pyRstripL

/-- Bytecode branch of `format_output`. -/
def formatBytecode (content : List Char) : List Char :=
  joinNl (keptLines (splitNl (expandBytecode content)))

/-- `format_output(content, is_disassembly)` on character lists,
including the `if not content: return content` guard. -/
def formatOutputL (content : List Char) (dis : Bool) : List Char :=
  if content.isEmpty then content
  else if dis then formatDisassembly content
  else formatBytecode content

/-- `format_output` on Lean strings. -/
def format_output (content : String) (dis : Bool) : String :=
  String.mk (formatOutputL content.data dis)

/-! ## JSON values and request bodies

The interface contract (spec section 6) fixes the request body to a JSON
object `\x7b content, disassembly, pretty, filename \x7d` (or null).  Field
values are modelled by the scalar JSON values; `none` at the body level
models a JSON `null` body (Flask's `get_json()` returning `None`). -/

inductive Json where
  | null
  | bool (b : Bool)
  | num (n : Int)
  | str (s : String)
deriving DecidableEq

/-- Python truthiness of a JSON scalar value. -/
def jsonTruthy : Json → Bool
  | Json.null => false
  | Json.bool b => b
  | Json.num n => n ≠ 0
  | Json.str s => !s.isEmpty

/-- `data[k]` / `k in data` on an object body. -/
def dictLookup (d : List (String × Json)) (k : String) : Option Json :=
  (d.find? (fun kv => kv.fst == k)).map Prod.snd

/-- `data.get(k, dflt)`. -/
def dictGet (d : List (String × Json)) (k : String) (dflt : Json) : Json :=
  (dictLookup d k).getD dflt

/-! ## Environment, trace and responses for `/deobfuscate` -/

/-- Outcome of `subprocess.run` on the tool command: normal completion
with an exit code and captured streams, `TimeoutExpired`, or some other
exception caught by the inner `except Exception`. -/
inductive RunOutcome where
  | completed (returncode : Int) (stdout stderr : String)
  | timedOut
  | raised (msg : String)
deriving DecidableEq

/-- Oracle for everything outside the Python code: filesystem existence
checks, the `dotnet build` outcome, the tool-process outcome, the content
of the output file after the run (`none` when the tool created no output
file), and whether `os.unlink` raises during cleanup. -/
structure Env where
  fileExists : String → Bool
  buildSucceeds : Bool
  run : RunOutcome
  outputContent : Option String
  unlinkRaises : Bool

/-- Effect trace of one request. -/
structure Trace where
  inputFileCreated : Bool := false
  buildAttempts : Nat := 0
  toolCmd : Option (List String) := none
  toolTimeout : Option Nat := none
  cleanupRan : Bool := false
  inputDeleted : Bool := false
  outputDeleted : Bool := false
deriving DecidableEq

/-- An HTTP response: status code plus JSON object body. -/
structure HttpResponse where
  status : Nat
  body : List (String × Json)
deriving DecidableEq

def resp500 (msg : String) : HttpResponse :=
  ⟨500, [("success", Json.bool false), ("error", Json.str msg)]⟩

def resp400 (msg : String) : HttpResponse :=
  ⟨400, [("success", Json.bool false), ("error", Json.str msg)]⟩

/-! ## Paths (server.py lines 14-16, 104-108, 125-148) -/

def MOONSEC_PATH : String := "MoonsecDeobfuscator-master"
def BUILD_PATH : String := MOONSEC_PATH ++ "/bin/Release/net8.0"

/-- The name handed out by `tempfile.NamedTemporaryFile(suffix='.lua')`;
the concrete name is opaque to the program. -/
def input_path : String := "tmp_input.lua"
def output_path : String := input_path ++ ".output"

def possible_paths : List String :=
  [BUILD_PATH ++ "/MoonsecDeobfuscator.exe",
   BUILD_PATH ++ "/MoonsecDeobfuscator",
   MOONSEC_PATH ++ "/bin/Release/net8.0/MoonsecDeobfuscator.exe",
   MOONSEC_PATH ++ "/bin/Release/net8.0/MoonsecDeobfuscator"]

def dll_path : String := BUILD_PATH ++ "/MoonsecDeobfuscator.dll"

/-! ## The endpoint (server.py lines 83-220) -/

/-- The `finally` block (lines 206-214): delete the input file (it always
exists at this point) and the output file when it exists; a raising
`unlink` is swallowed by `except: pass`, leaving later deletions undone
but the response untouched. -/
def runCleanup (env : Env) (outputExistsNow : Bool) (t : Trace) : Trace :=
  if env.unlinkRaises then
    { t with cleanupRan := true }
  else
    { t with cleanupRan := true, inputDeleted := true,
             outputDeleted := outputExistsNow }

/-- Lines 150-205: `subprocess.run(cmd, timeout=30)` and the handling of
its outcome, every return routed through the `finally` cleanup. -/
def runTool (env : Env) (dis : Bool) (d : List (String × Json))
    (cmd : List String) (t : Trace) : HttpResponse × Trace :=
  let t := { t with toolCmd := some cmd, toolTimeout := some 30 }
  let outputExists := env.outputContent.isSome
  match env.run with
  | RunOutcome.timedOut =>
      (resp500 "Process timed out after 30 seconds", runCleanup env outputExists t)
  | RunOutcome.raised m =>
      (resp500 ("Processing error: " ++ m), runCleanup env outputExists t)
  | RunOutcome.completed returncode _ stderr =>
      if returncode ≠ 0 then
        let error_msg := if stderr ≠ "" then String.mk (pyStripL stderr.data) else "Unknown error"
        (resp500 ("Deobfuscation failed: " ++ error_msg), runCleanup env outputExists t)
      else
        match env.outputContent with
        | some output_content =>
            let pretty := jsonTruthy (dictGet d "pretty" (Json.bool true))
            let result := if pretty then format_output output_content dis else output_content
            (⟨200, [("success", Json.bool true),
                    ("result", Json.str result),
                    ("format", Json.str (if dis then "disassembly" else "bytecode")),
                    ("original_filename", dictGet d "filename" (Json.str "unknown.lua"))]⟩,
             runCleanup env outputExists t)
        | none =>
            (resp500 "Output file was not created", runCleanup env outputExists t)

/-- Lines 110-214 (the inner `try`), entered after the input temp file has
been written successfully. -/
def deobfuscateInner (env : Env) (d : List (String × Json)) : HttpResponse × Trace :=
  let dis := jsonTruthy (dictGet d "disassembly" (Json.bool false))
  let command := if dis then "-dis" else "-dev"
  let buildNeeded := !env.fileExists BUILD_PATH
  let t : Trace := { inputFileCreated := true,
                     buildAttempts := if buildNeeded then 1 else 0 }
  if buildNeeded && !env.buildSucceeds then
    (resp500 "Failed to build Moonsec tool", runCleanup env false t)
  else
    match possible_paths.find? env.fileExists with
    | some exe_path =>
        runTool env dis d [exe_path, command, "-i", input_path, "-o", output_path] t
    | none =>
        if env.fileExists dll_path then
          runTool env dis d ["dotnet", dll_path, command, "-i", input_path, "-o", output_path] t
        else
          (resp500 "Moonsec executable not found. Try building first.", runCleanup env false t)

/-- `POST /deobfuscate` (lines 83-220).  `data = none` models a JSON
`null` body.  `if not data or 'content' not in data` is equivalent, on
object-or-null bodies, to the `content` lookup failing (an empty — falsy —
dict has no keys).  A non-string `content` value makes
`f.write(data['content'])` raise `TypeError` inside the `with` block,
before the inner `try`: the outer handler answers 500 and the `finally`
cleanup never runs, so the freshly created input file is not deleted. -/
def deobfuscate (data : Option (List (String × Json))) (env : Env) :
    HttpResponse × Trace :=
  match data with
  | none => (resp400 "No content provided", {})
  | some d =>
    match dictLookup d "content" with
    | none => (resp400 "No content provided", {})
    | some contentVal =>
      if !env.fileExists MOONSEC_PATH then
        (resp500 ("MoonsecDeobfuscator not found at: " ++ MOONSEC_PATH), {})
      else
        match contentVal with
        | Json.str _ => deobfuscateInner env d
        | _ =>
            (resp500 "Server error: write() argument must be str, not a non-string value",
             { inputFileCreated := true })

/-! ## Basic lemmas about the string primitives -/

theorem splitNl_ne_nil (s : List Char) : splitNl s ≠ [] := by
  induction s with
  | nil => simp [splitNl]
  | cons c cs ih =>
    simp only [splitNl]
    split
    · simp
    · split <;> simp

theorem not_newline_mem_splitNl {s l : List Char} (hl : l ∈ splitNl s) :
    '\n' ∉ l := by
  induction s generalizing l with
  | nil =>
    simp [splitNl] at hl
    simp [hl]
  | cons c cs ih =>
    simp only [splitNl] at hl
    by_cases hc : c = '\n'
    · rw [if_pos hc] at hl
      rcases List.mem_cons.mp hl with rfl | hm
      · simp
      · exact ih hm
    · rw [if_neg hc] at hl
      cases hsp : splitNl cs with
      | nil => exact absurd hsp (splitNl_ne_nil cs)
      | cons h rest =>
        rw [hsp] at hl
        rcases List.mem_cons.mp hl with rfl | hm
        · intro hmem
          rcases List.mem_cons.mp hmem with h1 | h1
          · exact hc h1.symm
          · exact ih (hsp ▸ List.mem_cons_self h rest) h1
        · exact ih (hsp ▸ List.mem_cons_of_mem h hm)

theorem splitNl_eq_single {a : List Char} (h : '\n' ∉ a) : splitNl a = [a] := by
  induction a with
  | nil => rfl
  | cons c cs ih =>
    have hc : ¬ c = '\n' := fun e => h (e ▸ List.mem_cons_self c cs)
    have hcs : '\n' ∉ cs := fun hm => h (List.mem_cons_of_mem _ hm)
    simp [splitNl, hc, ih hcs]

theorem splitNl_append (x y : List Char) :
    splitNl (x ++ '\n' :: y) = splitNl x ++ splitNl y := by
  induction x with
  | nil => simp [splitNl]
  | cons c cs ih =>
    by_cases hc : c = '\n'
    · subst hc
      simp [splitNl, ih]
    · cases hsp : splitNl cs with
      | nil => exact absurd hsp (splitNl_ne_nil cs)
      | cons h rest =>
        simp [splitNl, hc, ih, hsp]

theorem joinNl_cons (l : List Char) (L : List (List Char)) (hL : L ≠ []) :
    joinNl (l :: L) = l ++ '\n' :: joinNl L := by
  cases L with
  | nil => exact absurd rfl hL
  | cons m ms => rfl

theorem splitNl_joinNl (L : List (List Char)) (hne : L ≠ [])
    (hnl : ∀ l ∈ L, '\n' ∉ l) : splitNl (joinNl L) = L := by
  induction L with
  | nil => exact absurd rfl hne
  | cons l L ih =>
    cases L with
    | nil => exact splitNl_eq_single (hnl l (by simp))
    | cons m ms =>
      rw [joinNl_cons l (m :: ms) (by simp), splitNl_append,
          splitNl_eq_single (hnl l (by simp)),
          ih (by simp) (fun x hx => hnl x (List.mem_cons_of_mem _ hx))]
      rfl

theorem dropWhile_dropWhile (p : Char → Bool) (l : List Char) :
    (l.dropWhile p).dropWhile p = l.dropWhile p := by
  induction l with
  | nil => rfl
  | cons c cs ih =>
    by_cases h : p c
    · simp [List.dropWhile_cons, h, ih]
    · simp [List.dropWhile_cons, h]

theorem pyRstripL_idem (l : List Char) : pyRstripL (pyRstripL l) = pyRstripL l := by
  unfold pyRstripL
  rw [List.reverse_reverse, dropWhile_dropWhile]

theorem dropWhile_suffix_self (p : Char → Bool) (l : List Char) :
    l.dropWhile p <:+ l := by
  induction l with
  | nil => simp
  | cons c cs ih =>
    by_cases h : p c
    · rw [List.dropWhile_cons_of_pos h]
      exact ih.trans (List.suffix_cons c cs)
    · rw [List.dropWhile_cons_of_neg h]

theorem pyRstripL_isPrefix (l : List Char) : pyRstripL l <+: l := by
  have h := dropWhile_suffix_self pyIsSpace l.reverse
  have h2 := List.reverse_prefix.mpr h
  rwa [List.reverse_reverse] at h2

theorem pyStripL_rstrip (x : List Char) : pyStripL (pyRstripL x) = pyStripL x := by
  unfold pyStripL
  rw [pyRstripL_idem]

theorem pyRstripL_cons (a : Char) (l : List Char) (ha : pyIsSpace a = false) :
    pyRstripL (a :: l) = a :: pyRstripL l := by
  unfold pyRstripL
  rw [List.reverse_cons, List.dropWhile_append]
  by_cases h : (l.reverse.dropWhile pyIsSpace).isEmpty
  · rw [if_pos h]
    rw [List.isEmpty_iff] at h
    simp [List.dropWhile_cons, ha, h]
  · rw [if_neg h]
    simp

/-! ## Line-shape invariant for the bytecode formatter

After the three `replace` passes, every `;` and `{` is immediately
followed by a line break and every `}` is immediately preceded by one, so
within one line of the result `;` and `{` occur only as the final
character and `}` only as the first.  `midOK` describes lines with no
leading-`}` allowance (every `}`-free line whose specials sit at the end);
`lineOK` additionally allows a single leading `}`. -/

def plainChar (c : Char) : Bool :=
  !(c = ';' || c = '{' || c = '}' || c = '\n')

def midOK : List Char → Bool
  | [] => true
  | [c] => !(c = '}' || c = '\n')
  | c :: rest => plainChar c && midOK rest

def lineOK : List Char → Bool
  | [] => true
  | c :: m => if c = '}' then midOK m else midOK (c :: m)

def segsOK : List (List Char) → Prop
  | [] => True
  | h :: rest => midOK h = true ∧ ∀ l ∈ rest, lineOK l = true

theorem midOK_single (c : Char) : midOK [c] = !(c = '}' || c = '\n') := rfl

theorem midOK_cons_cons (c d : Char) (rest : List Char) :
    midOK (c :: d :: rest) = (plainChar c && midOK (d :: rest)) := rfl

theorem midOK_single_of_plain {c : Char} (hc : plainChar c = true) :
    midOK [c] = true := by
  rw [midOK_single]
  simp only [plainChar, Bool.not_eq_true', Bool.or_eq_false_iff] at hc ⊢
  exact ⟨hc.1.2, hc.2⟩

theorem midOK_cons_plain {c : Char} {h : List Char} (hc : plainChar c = true)
    (hm : midOK h = true) : midOK (c :: h) = true := by
  cases h with
  | nil => exact midOK_single_of_plain hc
  | cons d rest =>
    rw [midOK_cons_cons, hc, hm]
    rfl

theorem midOK_lineOK {l : List Char} (h : midOK l = true) : lineOK l = true := by
  cases l with
  | nil => rfl
  | cons c m =>
    by_cases hc : c = '}'
    · exfalso
      subst hc
      cases m with
      | nil => simp [midOK_single] at h
      | cons d rest => simp [midOK_cons_cons, plainChar] at h
    · show (if c = '}' then midOK m else midOK (c :: m)) = true
      rw [if_neg hc]
      exact h

theorem midOK_no_newline {m : List Char} (h : midOK m = true) : '\n' ∉ m := by
  induction m with
  | nil => simp
  | cons c rest ih =>
    intro hmem
    rcases List.mem_cons.mp hmem with rfl | hmem
    · cases rest with
      | nil => simp [midOK_single] at h
      | cons d rest2 => simp [midOK_cons_cons, plainChar] at h
    · cases rest with
      | nil => simp at hmem
      | cons d rest2 =>
        rw [midOK_cons_cons, Bool.and_eq_true] at h
        exact ih h.2 hmem

theorem midOK_mono : ∀ {m p : List Char}, midOK m = true → p <+: m →
    midOK p = true := by
  intro m
  induction m with
  | nil =>
    intro p _ hp
    rw [List.prefix_nil.mp hp]
    rfl
  | cons c m' ih =>
    intro p hm hp
    cases p with
    | nil => rfl
    | cons a p' =>
      obtain ⟨ha, hp'⟩ : a = c ∧ p' <+: m' := by
        obtain ⟨t, ht⟩ := hp
        injection ht with h1 h2
        exact ⟨h1, ⟨t, h2⟩⟩
      subst ha
      cases m' with
      | nil =>
        rw [List.prefix_nil.mp hp']
        exact hm
      | cons d m₂ =>
        rw [midOK_cons_cons, Bool.and_eq_true] at hm
        cases p' with
        | nil => exact midOK_single_of_plain hm.1
        | cons e p₂ =>
          rw [midOK_cons_cons, Bool.and_eq_true]
          exact ⟨hm.1, ih hm.2 hp'⟩

/-! ## The combined expansion map -/

/-- The three sequential `replace` passes act like a single
character-to-segment expansion. -/
def expandChar (c : Char) : List Char :=
  if c = ';' then [';', '\n']
  else if c = '{' then ['{', '\n']
  else if c = '}' then ['\n', '}']
  else [c]

def expandOne (l : List Char) : List Char := l.flatMap expandChar

theorem expandBytecode_cons (c : Char) (cs : List Char) :
    expandBytecode (c :: cs) = expandChar c ++ expandBytecode cs := by
  unfold expandBytecode replaceChar expandChar
  by_cases h1 : c = ';'
  · subst h1
    simp
  · by_cases h2 : c = '{'
    · subst h2
      simp
    · by_cases h3 : c = '}'
      · subst h3
        simp
      · simp [h1, h2, h3]

theorem expandBytecode_eq (l : List Char) : expandBytecode l = expandOne l := by
  induction l with
  | nil => rfl
  | cons c cs ih =>
    rw [expandBytecode_cons, ih]
    rfl

theorem expandOne_cons (c : Char) (l : List Char) :
    expandOne (c :: l) = expandChar c ++ expandOne l := rfl

theorem expandOne_append_newline (x y : List Char) :
    expandOne (x ++ '\n' :: y) = expandOne x ++ '\n' :: expandOne y := by
  unfold expandOne
  rw [List.flatMap_append, List.flatMap_cons]
  rfl

theorem expandOne_of_midOK {m : List Char} (h : midOK m = true) :
    expandOne m = m ∨ expandOne m = m ++ ['\n'] := by
  induction m with
  | nil => exact Or.inl rfl
  | cons c rest ih =>
    cases rest with
    | nil =>
      have h' : ¬ c = '}' ∧ ¬ c = '\n' := by
        rw [midOK_single] at h
        simp only [Bool.not_eq_true', Bool.or_eq_false_iff,
          decide_eq_false_iff_not] at h
        exact h
      by_cases h1 : c = ';'
      · subst h1
        exact Or.inr rfl
      · by_cases h2 : c = '{'
        · subst h2
          exact Or.inr rfl
        · refine Or.inl ?_
          simp [expandOne, expandChar, h1, h2, h'.1]
    | cons d rest2 =>
      rw [midOK_cons_cons, Bool.and_eq_true] at h
      have hplain : expandChar c = [c] := by
        have hp := h.1
        simp only [plainChar, Bool.not_eq_true', Bool.or_eq_false_iff,
          decide_eq_false_iff_not] at hp
        simp [expandChar, hp.1.1.1, hp.1.1.2, hp.1.2]
      rcases ih h.2 with he | he
      · refine Or.inl ?_
        rw [expandOne_cons, hplain, he]
        rfl
      · refine Or.inr ?_
        rw [expandOne_cons, hplain, he]
        rfl

/-! ## Every line of the expanded text satisfies the shape invariant -/

theorem segsOK_expand (u : List Char) : segsOK (splitNl (expandOne u)) := by
  induction u with
  | nil => exact ⟨rfl, by simp⟩
  | cons c u ih =>
    obtain ⟨h, rest, hsp⟩ : ∃ h rest, splitNl (expandOne u) = h :: rest := by
      cases hs : splitNl (expandOne u) with
      | nil => exact absurd hs (splitNl_ne_nil _)
      | cons a b => exact ⟨a, b, rfl⟩
    rw [hsp] at ih
    obtain ⟨ihh, ihr⟩ := ih
    rw [expandOne_cons]
    by_cases h1 : c = ';'
    · subst h1
      have hs : splitNl (expandChar ';' ++ expandOne u) = [';'] :: h :: rest := by
        show splitNl (';' :: '\n' :: expandOne u) = [';'] :: h :: rest
        simp [splitNl, hsp]
      rw [hs]
      refine ⟨by decide, fun l hl => ?_⟩
      rcases List.mem_cons.mp hl with rfl | hm
      · exact midOK_lineOK ihh
      · exact ihr l hm
    · by_cases h2 : c = '{'
      · subst h2
        have hs : splitNl (expandChar '{' ++ expandOne u) = ['{'] :: h :: rest := by
          show splitNl ('{' :: '\n' :: expandOne u) = ['{'] :: h :: rest
          simp [splitNl, hsp]
        rw [hs]
        refine ⟨by decide, fun l hl => ?_⟩
        rcases List.mem_cons.mp hl with rfl | hm
        · exact midOK_lineOK ihh
        · exact ihr l hm
      · by_cases h3 : c = '}'
        · subst h3
          have hs : splitNl (expandChar '}' ++ expandOne u) = [] :: ('}' :: h) :: rest := by
            show splitNl ('\n' :: '}' :: expandOne u) = [] :: ('}' :: h) :: rest
            simp [splitNl, hsp]
          rw [hs]
          refine ⟨rfl, fun l hl => ?_⟩
          rcases List.mem_cons.mp hl with rfl | hm
          · show (if '}' = '}' then midOK h else midOK ('}' :: h)) = true
            rw [if_pos rfl]
            exact ihh
          · exact ihr l hm
        · by_cases h4 : c = '\n'
          · subst h4
            have hs : splitNl (expandChar '\n' ++ expandOne u) = [] :: h :: rest := by
              show splitNl ('\n' :: expandOne u) = [] :: h :: rest
              simp [splitNl, hsp]
            rw [hs]
            refine ⟨rfl, fun l hl => ?_⟩
            rcases List.mem_cons.mp hl with rfl | hm
            · exact midOK_lineOK ihh
            · exact ihr l hm
          · have hplain : plainChar c = true := by
              simp [plainChar, h1, h2, h3, h4]
            have hec : expandChar c = [c] := by
              simp [expandChar, h1, h2, h3]
            have hs : splitNl (expandChar c ++ expandOne u) = (c :: h) :: rest := by
              rw [hec]
              show splitNl (c :: expandOne u) = (c :: h) :: rest
              simp [splitNl, h4, hsp]
            rw [hs]
            exact ⟨midOK_cons_plain hplain ihh, ihr⟩

/-! ## `keptLines` computations -/

theorem pyStripL_nil : pyStripL [] = [] := rfl

theorem keptLines_cons_empty (S : List (List Char)) :
    keptLines ([] :: S) = keptLines S := by
  simp [keptLines, pyStripL_nil]

theorem keptLines_cons_keep {l : List Char} (h1 : (pyStripL l).isEmpty = false)
    (h2 : pyRstripL l = l) (S : List (List Char)) :
    keptLines (l :: S) = l :: keptLines S := by
  simp [keptLines, h1, h2]

theorem keptLines_append (S1 S2 : List (List Char)) :
    keptLines (S1 ++ S2) = keptLines S1 ++ keptLines S2 := by
  simp [keptLines, List.filter_append]

/-- A good line of bytecode-formatter output: shape invariant, already
rstripped, nonempty after `strip`, newline-free. -/
def goodLine (l : List Char) : Prop :=
  lineOK l = true ∧ pyRstripL l = l ∧ (pyStripL l).isEmpty = false ∧ '\n' ∉ l

theorem goodLine_ne_nil {l : List Char} (h : goodLine l) : l ≠ [] := by
  rintro rfl
  have hne : ¬ ((pyStripL []).isEmpty = false) := by decide
  exact hne h.2.2.1

theorem splitNl_cons_newline (x : List Char) :
    splitNl ('\n' :: x) = [] :: splitNl x := by
  simp [splitNl]

/-- Applying the expansion and line-filtering to one good line returns
exactly that line. -/
theorem keptLines_expand_single {l : List Char} (hg : goodLine l) :
    keptLines (splitNl (expandOne l)) = [l] := by
  obtain ⟨hok, hrs, hstrip, hnl⟩ := hg
  cases l with
  | nil =>
    exfalso
    have hne : ¬ ((pyStripL []).isEmpty = false) := by decide
    exact hne hstrip
  | cons c m =>
    by_cases hc : c = '}'
    · subst hc
      have hmid : midOK m = true := by
        have heq : lineOK ('}' :: m) =
            (if '}' = '}' then midOK m else midOK ('}' :: m)) := rfl
        rw [heq, if_pos rfl] at hok
        exact hok
      have hsm : splitNl ('}' :: m) = ['}' :: m] := splitNl_eq_single hnl
      rcases expandOne_of_midOK hmid with he | he
      · have hexp : expandOne ('}' :: m) = '\n' :: '}' :: m := by
          rw [expandOne_cons, he]
          rfl
        rw [hexp, splitNl_cons_newline, hsm, keptLines_cons_empty,
            keptLines_cons_keep hstrip hrs]
        rfl
      · have hexp : expandOne ('}' :: m) =
            '\n' :: (('}' :: m) ++ '\n' :: ([] : List Char)) := by
          rw [expandOne_cons, he]
          rfl
        rw [hexp, splitNl_cons_newline, splitNl_append, hsm]
        show keptLines ([] :: ('}' :: m) :: [[]]) = ['}' :: m]
        rw [keptLines_cons_empty, keptLines_cons_keep hstrip hrs,
            keptLines_cons_empty]
        rfl
    · have hmid : midOK (c :: m) = true := by
        have heq : lineOK (c :: m) =
            (if c = '}' then midOK m else midOK (c :: m)) := rfl
        rw [heq, if_neg hc] at hok
        exact hok
      rcases expandOne_of_midOK hmid with he | he
      · rw [he, splitNl_eq_single hnl, keptLines_cons_keep hstrip hrs]
        rfl
      · rw [he]
        rw [show ((c :: m) ++ ['\n']) = ((c :: m) ++ '\n' :: ([] : List Char)) from rfl,
            splitNl_append, splitNl_eq_single hnl]
        show keptLines ((c :: m) :: [[]]) = [c :: m]
        rw [keptLines_cons_keep hstrip hrs, keptLines_cons_empty]
        rfl

/-- Re-running the whole bytecode pipeline on a join of good lines
reproduces exactly those lines. -/
theorem keptLines_expand_joinNl : ∀ (L : List (List Char)),
    (∀ l ∈ L, goodLine l) →
    keptLines (splitNl (expandOne (joinNl L))) = L := by
  intro L
  induction L with
  | nil => intro _; rfl
  | cons l L ih =>
    intro hall
    cases L with
    | nil => exact keptLines_expand_single (hall l (by simp))
    | cons m ms =>
      rw [joinNl_cons l (m :: ms) (by simp), expandOne_append_newline,
          splitNl_append, keptLines_append,
          keptLines_expand_single (hall l (by simp)),
          ih (fun x hx => hall x (List.mem_cons_of_mem _ hx))]
      rfl

/-! ## Lines produced by the bytecode formatter are good -/

theorem lineOK_rstrip {l : List Char} (h : lineOK l = true) :
    lineOK (pyRstripL l) = true := by
  cases l with
  | nil => rfl
  | cons c m =>
    by_cases hc : c = '}'
    · subst hc
      have hmid : midOK m = true := by
        have heq : lineOK ('}' :: m) =
            (if '}' = '}' then midOK m else midOK ('}' :: m)) := rfl
        rw [heq, if_pos rfl] at h
        exact h
      have hsp : pyIsSpace '}' = false := by decide
      rw [pyRstripL_cons _ _ hsp]
      show (if '}' = '}' then midOK (pyRstripL m) else midOK ('}' :: pyRstripL m)) = true
      rw [if_pos rfl]
      exact midOK_mono hmid (pyRstripL_isPrefix m)
    · have hmid : midOK (c :: m) = true := by
        have heq : lineOK (c :: m) =
            (if c = '}' then midOK m else midOK (c :: m)) := rfl
        rw [heq, if_neg hc] at h
        exact h
      exact midOK_lineOK (midOK_mono hmid (pyRstripL_isPrefix (c :: m)))

theorem goodLine_keptLines_expand (u : List Char) :
    ∀ l ∈ keptLines (splitNl (expandOne u)), goodLine l := by
  intro l hl
  unfold keptLines at hl
  rw [List.mem_map] at hl
  obtain ⟨seg, hsegmem, rfl⟩ := hl
  rw [List.mem_filter] at hsegmem
  obtain ⟨hsegmem, hcond⟩ := hsegmem
  have hcond' : (pyStripL seg).isEmpty = false := by
    simpa using hcond
  have hnl : '\n' ∉ seg := not_newline_mem_splitNl hsegmem
  have hlineOK : lineOK seg = true := by
    have hs := segsOK_expand u
    cases hsp : splitNl (expandOne u) with
    | nil => exact absurd hsp (splitNl_ne_nil _)
    | cons h rest =>
      rw [hsp] at hsegmem hs
      obtain ⟨hh, hr⟩ := hs
      rcases List.mem_cons.mp hsegmem with rfl | hm
      · exact midOK_lineOK hh
      · exact hr _ hm
  refine ⟨lineOK_rstrip hlineOK, pyRstripL_idem seg, ?_, ?_⟩
  · rw [pyStripL_rstrip]
    exact hcond'
  · intro hmem
    exact hnl ((pyRstripL_isPrefix seg).subset hmem)

/-! ## Second application of the formatter -/

theorem fmtL_eq_bc (u : List Char) (hu : u.isEmpty = false) :
    formatOutputL u false = formatBytecode u := by
  simp only [formatOutputL, hu]
  rfl

theorem fmtL_eq_dis (u : List Char) (hu : u.isEmpty = false) :
    formatOutputL u true = formatDisassembly u := by
  simp only [formatOutputL, hu]
  rfl

theorem formatBytecode_eq_joinNl (u : List Char) :
    formatBytecode u = joinNl (keptLines (splitNl (expandOne u))) := by
  rw [formatBytecode, expandBytecode_eq]

theorem formatOutputL_bytecode_second (u : List Char) :
    formatOutputL (formatOutputL u false) false = formatOutputL u false := by
  by_cases hu : u.isEmpty
  · unfold formatOutputL
    rw [if_pos hu, if_pos hu]
  · rw [fmtL_eq_bc u (by simpa using hu)]
    by_cases ht : (formatBytecode u).isEmpty
    · unfold formatOutputL
      rw [if_pos ht]
    · rw [fmtL_eq_bc _ (by simpa using ht)]
      rw [formatBytecode_eq_joinNl (formatBytecode u), formatBytecode_eq_joinNl u,
          keptLines_expand_joinNl _ (goodLine_keptLines_expand u)]

/-- The per-line processing of the disassembly branch. -/
theorem disLine_mem {u : List Char} :
    ∀ l ∈ (splitNl u).filterMap (fun line =>
      let r := pyRstripL line
      if r.isEmpty then none else some r),
    pyRstripL l = l ∧ l ≠ [] ∧ '\n' ∉ l := by
  intro l hl
  rw [List.mem_filterMap] at hl
  obtain ⟨seg, hmem, hseg⟩ := hl
  simp only at hseg
  by_cases hre : (pyRstripL seg).isEmpty
  · rw [if_pos hre] at hseg
    exact absurd hseg (by simp)
  · rw [if_neg hre] at hseg
    injection hseg with hseg
    subst hseg
    refine ⟨pyRstripL_idem seg, ?_, ?_⟩
    · intro h0
      exact hre (by rw [h0]; rfl)
    · intro hmemNl
      exact not_newline_mem_splitNl hmem ((pyRstripL_isPrefix seg).subset hmemNl)

theorem disLines_fixed : ∀ (L : List (List Char)),
    (∀ l ∈ L, pyRstripL l = l ∧ l ≠ []) →
    (L.filterMap (fun line =>
      let r := pyRstripL line
      if r.isEmpty then none else some r)) = L := by
  intro L
  induction L with
  | nil => intro _; rfl
  | cons l L ih =>
    intro h
    obtain ⟨h1, h2⟩ := h l (by simp)
    have hie : l.isEmpty = false := by
      cases l with
      | nil => exact absurd rfl h2
      | cons a as => rfl
    have hf : (fun line : List Char =>
        let r := pyRstripL line
        if r.isEmpty then none else some r) l = some l := by
      simp only [h1, hie]
      rfl
    simp only [List.filterMap_cons, hf]
    rw [ih (fun x hx => h x (List.mem_cons_of_mem _ hx))]

theorem formatOutputL_dis_second (u : List Char) :
    formatOutputL (formatOutputL u true) true = formatOutputL u true := by
  by_cases hu : u.isEmpty
  · unfold formatOutputL
    rw [if_pos hu, if_pos hu]
  · rw [fmtL_eq_dis u (by simpa using hu)]
    by_cases ht : (formatDisassembly u).isEmpty
    · unfold formatOutputL
      rw [if_pos ht]
    · rw [fmtL_eq_dis _ (by simpa using ht)]
      have hprops := disLine_mem (u := u)
      have hLne : ((splitNl u).filterMap (fun line =>
          let r := pyRstripL line
          if r.isEmpty then none else some r)) ≠ [] := by
        intro h0
        apply ht
        unfold formatDisassembly
        rw [h0]
        rfl
      conv_lhs => rw [formatDisassembly, formatDisassembly]
      rw [splitNl_joinNl _ hLne (fun l hl => (hprops l hl).2.2),
          disLines_fixed _ (fun l hl => ⟨(hprops l hl).1, (hprops l hl).2.1⟩)]
      rw [formatDisassembly]

/-! ## Response field accessors and sample environments -/

def respField (r : HttpResponse) (k : String) : Option Json := dictLookup r.body k

/-- Environment in which everything succeeds. -/
def envHappy : Env :=
  { fileExists := fun _ => true, buildSucceeds := true,
    run := RunOutcome.completed 0 "" "", outputContent := some "ok",
    unlinkRaises := false }

def dataX : List (String × Json) := [("content", Json.str "x")]

/-! ## Branch characterization of the endpoint -/

def disOf (d : List (String × Json)) : Bool :=
  jsonTruthy (dictGet d "disassembly" (Json.bool false))

def commandFlag (d : List (String × Json)) : String :=
  if disOf d then "-dis" else "-dev"

def innerTrace (env : Env) : Trace :=
  { inputFileCreated := true,
    buildAttempts := if !env.fileExists BUILD_PATH then 1 else 0 }

def exeCmd (exe : String) (d : List (String × Json)) : List String :=
  [exe, commandFlag d, "-i", input_path, "-o", output_path]

def dllCmd (d : List (String × Json)) : List String :=
  ["dotnet", dll_path, commandFlag d, "-i", input_path, "-o", output_path]

theorem deobfuscate_none (env : Env) :
    deobfuscate none env = (resp400 "No content provided", {}) := rfl

theorem deobfuscate_no_content (d : List (String × Json)) (env : Env)
    (hc : dictLookup d "content" = none) :
    deobfuscate (some d) env = (resp400 "No content provided", {}) := by
  simp only [deobfuscate, hc]

theorem deobfuscate_no_moonsec (d : List (String × Json)) (env : Env) (v : Json)
    (hc : dictLookup d "content" = some v)
    (hm : env.fileExists MOONSEC_PATH = false) :
    deobfuscate (some d) env =
      (resp500 ("MoonsecDeobfuscator not found at: " ++ MOONSEC_PATH), {}) := by
  simp only [deobfuscate, hc, hm]
  rfl

theorem deobfuscate_str (d : List (String × Json)) (env : Env) (s : String)
    (hc : dictLookup d "content" = some (Json.str s))
    (hm : env.fileExists MOONSEC_PATH = true) :
    deobfuscate (some d) env = deobfuscateInner env d := by
  simp only [deobfuscate, hc, hm]
  rfl

theorem deobfuscate_nonstr (d : List (String × Json)) (env : Env) (v : Json)
    (hc : dictLookup d "content" = some v)
    (hm : env.fileExists MOONSEC_PATH = true)
    (hv : ∀ s, v ≠ Json.str s) :
    deobfuscate (some d) env =
      (resp500 "Server error: write() argument must be str, not a non-string value",
       { inputFileCreated := true }) := by
  simp only [deobfuscate, hc, hm]
  cases v with
  | str s => exact absurd rfl (hv s)
  | null => rfl
  | bool b => rfl
  | num n => rfl

theorem deobfuscateInner_buildFail (env : Env) (d : List (String × Json))
    (h : (!env.fileExists BUILD_PATH && !env.buildSucceeds) = true) :
    deobfuscateInner env d =
      (resp500 "Failed to build Moonsec tool",
       runCleanup env false (innerTrace env)) := by
  unfold deobfuscateInner
  simp only [h, innerTrace]
  rfl

theorem deobfuscateInner_exe (env : Env) (d : List (String × Json)) (exe : String)
    (h : (!env.fileExists BUILD_PATH && !env.buildSucceeds) = false)
    (hf : possible_paths.find? env.fileExists = some exe) :
    deobfuscateInner env d =
      runTool env (disOf d) d (exeCmd exe d) (innerTrace env) := by
  unfold deobfuscateInner
  simp only [h, hf, innerTrace, exeCmd, commandFlag, disOf]
  rfl

theorem deobfuscateInner_dll (env : Env) (d : List (String × Json))
    (h : (!env.fileExists BUILD_PATH && !env.buildSucceeds) = false)
    (hf : possible_paths.find? env.fileExists = none)
    (hd : env.fileExists dll_path = true) :
    deobfuscateInner env d =
      runTool env (disOf d) d (dllCmd d) (innerTrace env) := by
  unfold deobfuscateInner
  simp only [h, hf, hd, innerTrace, dllCmd, commandFlag, disOf]
  rfl

theorem deobfuscateInner_noExe (env : Env) (d : List (String × Json))
    (h : (!env.fileExists BUILD_PATH && !env.buildSucceeds) = false)
    (hf : possible_paths.find? env.fileExists = none)
    (hd : env.fileExists dll_path = false) :
    deobfuscateInner env d =
      (resp500 "Moonsec executable not found. Try building first.",
       runCleanup env false (innerTrace env)) := by
  unfold deobfuscateInner
  simp only [h, hf, hd, innerTrace]
  rfl

theorem runTool_snd (env : Env) (dis : Bool) (d : List (String × Json))
    (cmd : List String) (t : Trace) :
    (runTool env dis d cmd t).snd =
      runCleanup env env.outputContent.isSome
        { t with toolCmd := some cmd, toolTimeout := some 30 } := by
  unfold runTool
  cases env.run with
  | timedOut => rfl
  | raised m => rfl
  | completed rc so se =>
    dsimp only
    split
    · rfl
    · cases env.outputContent <;> rfl

theorem runTool_fst_timedOut (env : Env) (dis : Bool) (d : List (String × Json))
    (cmd : List String) (t : Trace) (h : env.run = RunOutcome.timedOut) :
    (runTool env dis d cmd t).fst = resp500 "Process timed out after 30 seconds" := by
  unfold runTool
  rw [h]

theorem runTool_fst_raised (env : Env) (dis : Bool) (d : List (String × Json))
    (cmd : List String) (t : Trace) (m : String) (h : env.run = RunOutcome.raised m) :
    (runTool env dis d cmd t).fst = resp500 ("Processing error: " ++ m) := by
  unfold runTool
  rw [h]

theorem runTool_fst_nonzero (env : Env) (dis : Bool) (d : List (String × Json))
    (cmd : List String) (t : Trace) (rc : Int) (so se : String)
    (h : env.run = RunOutcome.completed rc so se) (hrc : rc ≠ 0) :
    (runTool env dis d cmd t).fst =
      resp500 ("Deobfuscation failed: " ++
        (if se ≠ "" then String.mk (pyStripL se.data) else "Unknown error")) := by
  unfold runTool
  rw [h]
  dsimp only
  rw [if_pos hrc]

theorem runTool_fst_ok_out (env : Env) (dis : Bool) (d : List (String × Json))
    (cmd : List String) (t : Trace) (so se oc : String)
    (h : env.run = RunOutcome.completed 0 so se)
    (ho : env.outputContent = some oc) :
    (runTool env dis d cmd t).fst =
      ⟨200, [("success", Json.bool true),
             ("result", Json.str (if jsonTruthy (dictGet d "pretty" (Json.bool true))
               then format_output oc dis else oc)),
             ("format", Json.str (if dis then "disassembly" else "bytecode")),
             ("original_filename", dictGet d "filename" (Json.str "unknown.lua"))]⟩ := by
  unfold runTool
  rw [h]
  dsimp only
  rw [if_neg (by decide : ¬ (0 : Int) ≠ 0), ho]

theorem runTool_fst_ok_noout (env : Env) (dis : Bool) (d : List (String × Json))
    (cmd : List String) (t : Trace) (so se : String)
    (h : env.run = RunOutcome.completed 0 so se)
    (ho : env.outputContent = none) :
    (runTool env dis d cmd t).fst = resp500 "Output file was not created" := by
  unfold runTool
  rw [h]
  dsimp only
  rw [if_neg (by decide : ¬ (0 : Int) ≠ 0), ho]

theorem runCleanup_inputFileCreated (env : Env) (oe : Bool) (t : Trace) :
    (runCleanup env oe t).inputFileCreated = t.inputFileCreated := by
  unfold runCleanup
  split <;> rfl

theorem runCleanup_buildAttempts (env : Env) (oe : Bool) (t : Trace) :
    (runCleanup env oe t).buildAttempts = t.buildAttempts := by
  unfold runCleanup
  split <;> rfl

theorem runCleanup_toolCmd (env : Env) (oe : Bool) (t : Trace) :
    (runCleanup env oe t).toolCmd = t.toolCmd := by
  unfold runCleanup
  split <;> rfl

theorem runCleanup_toolTimeout (env : Env) (oe : Bool) (t : Trace) :
    (runCleanup env oe t).toolTimeout = t.toolTimeout := by
  unfold runCleanup
  split <;> rfl

theorem runCleanup_cleanupRan (env : Env) (oe : Bool) (t : Trace) :
    (runCleanup env oe t).cleanupRan = true := by
  unfold runCleanup
  split <;> rfl

theorem runCleanup_deletes (env : Env) (oe : Bool) (t : Trace)
    (h : env.unlinkRaises = false) :
    (runCleanup env oe t).inputDeleted = true ∧
    (runCleanup env oe t).outputDeleted = oe := by
  unfold runCleanup
  rw [h]
  exact ⟨rfl, rfl⟩

/-- Master case analysis for `deobfuscate`: every reachable outcome, with
the conditions that lead to it. -/
theorem deobfuscate_cases (data : Option (List (String × Json))) (env : Env)
    {motive : HttpResponse × Trace → Prop}
    (h400 : (data = none ∨ ∃ d, data = some d ∧ dictLookup d "content" = none) →
      motive (resp400 "No content provided", {}))
    (h500m : env.fileExists MOONSEC_PATH = false →
      motive (resp500 ("MoonsecDeobfuscator not found at: " ++ MOONSEC_PATH), {}))
    (h500w : (∃ d v, data = some d ∧ dictLookup d "content" = some v ∧
        (∀ s, v ≠ Json.str s)) →
      env.fileExists MOONSEC_PATH = true →
      motive (resp500 "Server error: write() argument must be str, not a non-string value",
        { inputFileCreated := true }))
    (hbuild : env.fileExists MOONSEC_PATH = true →
      (!env.fileExists BUILD_PATH && !env.buildSucceeds) = true →
      motive (resp500 "Failed to build Moonsec tool",
        runCleanup env false (innerTrace env)))
    (hrun : ∀ d cmd, data = some d →
      (∃ s, dictLookup d "content" = some (Json.str s)) →
      env.fileExists MOONSEC_PATH = true →
      (!env.fileExists BUILD_PATH && !env.buildSucceeds) = false →
      ((∃ exe, possible_paths.find? env.fileExists = some exe ∧ cmd = exeCmd exe d) ∨
       (possible_paths.find? env.fileExists = none ∧ env.fileExists dll_path = true ∧
        cmd = dllCmd d)) →
      motive (runTool env (disOf d) d cmd (innerTrace env)))
    (hnoexe : env.fileExists MOONSEC_PATH = true →
      (!env.fileExists BUILD_PATH && !env.buildSucceeds) = false →
      possible_paths.find? env.fileExists = none →
      env.fileExists dll_path = false →
      motive (resp500 "Moonsec executable not found. Try building first.",
        runCleanup env false (innerTrace env))) :
    motive (deobfuscate data env) := by
  cases data with
  | none =>
    rw [deobfuscate_none]
    exact h400 (Or.inl rfl)
  | some d =>
    cases hc : dictLookup d "content" with
    | none =>
      rw [deobfuscate_no_content d env hc]
      exact h400 (Or.inr ⟨d, rfl, hc⟩)
    | some v =>
      by_cases hm : env.fileExists MOONSEC_PATH
      · cases v with
        | str s =>
          rw [deobfuscate_str d env s hc hm]
          by_cases hb : (!env.fileExists BUILD_PATH && !env.buildSucceeds) = true
          · rw [deobfuscateInner_buildFail env d hb]
            exact hbuild hm hb
          · have hb2 : (!env.fileExists BUILD_PATH && !env.buildSucceeds) = false := by
              simpa using hb
            cases hf : possible_paths.find? env.fileExists with
            | some exe =>
              rw [deobfuscateInner_exe env d exe hb2 hf]
              exact hrun d _ rfl ⟨s, hc⟩ hm hb2 (Or.inl ⟨exe, hf, rfl⟩)
            | none =>
              by_cases hd : env.fileExists dll_path
              · rw [deobfuscateInner_dll env d hb2 hf hd]
                exact hrun d _ rfl ⟨s, hc⟩ hm hb2 (Or.inr ⟨hf, hd, rfl⟩)
              · have hd2 : env.fileExists dll_path = false := by simpa using hd
                rw [deobfuscateInner_noExe env d hb2 hf hd2]
                exact hnoexe hm hb2 hf hd2
        | null =>
          rw [deobfuscate_nonstr d env Json.null hc hm (fun s h => by cases h)]
          exact h500w ⟨d, Json.null, rfl, hc, fun s h => by cases h⟩ hm
        | bool b =>
          rw [deobfuscate_nonstr d env (Json.bool b) hc hm (fun s h => by cases h)]
          exact h500w ⟨d, Json.bool b, rfl, hc, fun s h => by cases h⟩ hm
        | num n =>
          rw [deobfuscate_nonstr d env (Json.num n) hc hm (fun s h => by cases h)]
          exact h500w ⟨d, Json.num n, rfl, hc, fun s h => by cases h⟩ hm
      · have hm2 : env.fileExists MOONSEC_PATH = false := by simpa using hm
        rw [deobfuscate_no_moonsec d env v hc hm2]
        exact h500m hm2

/-- Case analysis for a `runTool` call: the cleanup trace is common to all
outcomes, the response depends on the run outcome. -/
theorem runTool_cases (env : Env) (dis : Bool) (d : List (String × Json))
    (cmd : List String) (t : Trace) {motive : HttpResponse × Trace → Prop}
    (htime : env.run = RunOutcome.timedOut →
      motive (resp500 "Process timed out after 30 seconds",
        runCleanup env env.outputContent.isSome
          { t with toolCmd := some cmd, toolTimeout := some 30 }))
    (hraise : ∀ m, env.run = RunOutcome.raised m →
      motive (resp500 ("Processing error: " ++ m),
        runCleanup env env.outputContent.isSome
          { t with toolCmd := some cmd, toolTimeout := some 30 }))
    (hnz : ∀ rc so se, env.run = RunOutcome.completed rc so se → rc ≠ 0 →
      motive (resp500 ("Deobfuscation failed: " ++
          (if se ≠ "" then String.mk (pyStripL se.data) else "Unknown error")),
        runCleanup env env.outputContent.isSome
          { t with toolCmd := some cmd, toolTimeout := some 30 }))
    (hok : ∀ so se oc, env.run = RunOutcome.completed 0 so se →
      env.outputContent = some oc →
      motive (⟨200, [("success", Json.bool true),
          ("result", Json.str (if jsonTruthy (dictGet d "pretty" (Json.bool true))
            then format_output oc dis else oc)),
          ("format", Json.str (if dis then "disassembly" else "bytecode")),
          ("original_filename", dictGet d "filename" (Json.str "unknown.lua"))]⟩,
        runCleanup env env.outputContent.isSome
          { t with toolCmd := some cmd, toolTimeout := some 30 }))
    (hnoout : ∀ so se, env.run = RunOutcome.completed 0 so se →
      env.outputContent = none →
      motive (resp500 "Output file was not created",
        runCleanup env env.outputContent.isSome
          { t with toolCmd := some cmd, toolTimeout := some 30 })) :
    motive (runTool env dis d cmd t) := by
  have hsnd := runTool_snd env dis d cmd t
  cases hr : env.run with
  | timedOut =>
    have heq : runTool env dis d cmd t =
        (resp500 "Process timed out after 30 seconds", _) :=
      Prod.ext (runTool_fst_timedOut env dis d cmd t hr) hsnd
    rw [heq]
    exact htime hr
  | raised m =>
    have heq : runTool env dis d cmd t =
        (resp500 ("Processing error: " ++ m), _) :=
      Prod.ext (runTool_fst_raised env dis d cmd t m hr) hsnd
    rw [heq]
    exact hraise m hr
  | completed rc so se =>
    by_cases hrc : rc = 0
    · subst hrc
      cases ho : env.outputContent with
      | some oc =>
        have heq : runTool env dis d cmd t = (_, _) :=
          Prod.ext (runTool_fst_ok_out env dis d cmd t so se oc hr ho) hsnd
        rw [heq]
        exact hok so se oc hr ho
      | none =>
        have heq : runTool env dis d cmd t =
            (resp500 "Output file was not created", _) :=
          Prod.ext (runTool_fst_ok_noout env dis d cmd t so se hr ho) hsnd
        rw [heq]
        exact hnoout so se hr ho
    · have heq : runTool env dis d cmd t = (_, _) :=
        Prod.ext (runTool_fst_nonzero env dis d cmd t rc so se hr hrc) hsnd
      rw [heq]
      exact hnz rc so se hr hrc

theorem deob_status_ne_400_of_content (d : List (String × Json)) (env : Env)
    (v : Json) (hc : dictLookup d "content" = some v) :
    (deobfuscate (some d) env).fst.status ≠ 400 := by
  refine deobfuscate_cases (some d) env
    (motive := fun r => r.fst.status ≠ 400) ?_ ?_ ?_ ?_ ?_ ?_
  · rintro (h | ⟨d2, hd2, hl⟩)
    · cases h
    · injection hd2 with hd2
      subst hd2
      rw [hl] at hc
      cases hc
  · intro _
    simp [resp500]
  · intro _ _
    simp [resp500]
  · intro _ _
    simp [resp500]
  · intro d2 cmd _ _ _ _ _
    refine runTool_cases env (disOf d2) d2 cmd (innerTrace env)
      (motive := fun r => r.fst.status ≠ 400) ?_ ?_ ?_ ?_ ?_
    · intro _
      simp [resp500]
    · intro m _
      simp [resp500]
    · intro rc so se _ _
      simp [resp500]
    · intro so se oc _ _
      simp
    · intro so se _ _
      simp [resp500]
  · intro _ _ _ _
    simp [resp500]

/-- C10: POST /deobfuscate rejects with HTTP 400 exactly when the parsed
JSON body is null or lacks the key `content` (an empty object, being falsy,
has no keys); in particular a body with `content` bound to the empty string
passes validation, and its input temp file is created whenever the tool
directory exists, i.e. the request is forwarded to the pipeline rather than
rejected. -/
theorem c10_validation_iff :
    (∀ (data : Option (List (String × Json))) (env : Env),
      (deobfuscate data env).fst.status = 400 ↔
        (data = none ∨ ∃ d, data = some d ∧ dictLookup d "content" = none)) ∧
    (∀ env : Env,
      (deobfuscate (some [("content", Json.str "")]) env).fst.status ≠ 400 ∧
      (deobfuscate (some [("content", Json.str "")]) env).snd.inputFileCreated =
        env.fileExists MOONSEC_PATH) := by
  constructor
  · intro data env
    cases data with
    | none => simp [deobfuscate, resp400]
    | some d =>
      cases hc : dictLookup d "content" with
      | none => simp [deobfuscate, hc, resp400]
      | some v =>
        refine iff_of_false (deob_status_ne_400_of_content d env v hc) ?_
        rintro (h | ⟨d2, hd2, hl⟩)
        · cases h
        · injection hd2 with hd2
          subst hd2
          rw [hl] at hc
          cases hc
  · intro env
    refine ⟨deob_status_ne_400_of_content _ env _ rfl, ?_⟩
    by_cases hm : env.fileExists MOONSEC_PATH
    · rw [hm]
      refine deobfuscate_cases (some [("content", Json.str "")]) env
        (motive := fun r => r.snd.inputFileCreated = true) ?_ ?_ ?_ ?_ ?_ ?_
      · rintro (h | ⟨d2, hd2, hl⟩)
        · cases h
        · injection hd2 with hd2
          subst hd2
          cases hl
      · intro hm2
        rw [hm] at hm2
        cases hm2
      · rintro ⟨d2, v, hd2, hl, hv⟩ _
        injection hd2 with hd2
        subst hd2
        injection hl with hl
        exact absurd hl.symm (hv "")
      · intro _ _
        rw [runCleanup_inputFileCreated]
        rfl
      · intro d2 cmd _ _ _ _ _
        refine runTool_cases env (disOf d2) d2 cmd (innerTrace env)
          (motive := fun r => r.snd.inputFileCreated = true) ?_ ?_ ?_ ?_ ?_ <;>
          intros <;> rw [runCleanup_inputFileCreated] <;> rfl
      · intro _ _ _ _
        rw [runCleanup_inputFileCreated]
        rfl
    · have hm2 : env.fileExists MOONSEC_PATH = false := by simpa using hm
      rw [hm2, deobfuscate_no_moonsec [("content", Json.str "")] env (Json.str "") rfl hm2]

theorem innerTrace_toolTimeout (env : Env) : (innerTrace env).toolTimeout = none := rfl

theorem innerTrace_toolCmd (env : Env) : (innerTrace env).toolCmd = none := rfl

theorem innerTrace_buildAttempts (env : Env) :
    (innerTrace env).buildAttempts = if !env.fileExists BUILD_PATH then 1 else 0 := rfl

theorem trace_upd_toolTimeout (t : Trace) (cmd : List String) :
    ({ t with toolCmd := some cmd, toolTimeout := some 30 } : Trace).toolTimeout =
      some 30 := rfl

theorem trace_upd_toolCmd (t : Trace) (cmd : List String) :
    ({ t with toolCmd := some cmd, toolTimeout := some 30 } : Trace).toolCmd =
      some cmd := rfl

theorem trace_upd_buildAttempts (t : Trace) (cmd : List String) :
    ({ t with toolCmd := some cmd, toolTimeout := some 30 } : Trace).buildAttempts =
      t.buildAttempts := rfl

theorem trace_upd_created (t : Trace) (cmd : List String) :
    ({ t with toolCmd := some cmd, toolTimeout := some 30 } : Trace).inputFileCreated =
      t.inputFileCreated := rfl

/-- C2: every request whose body lacks the `content` field (a null body or
an object without that key) is answered with HTTP 400, `success: false`
and the error message `No content provided`, whatever the environment. -/
theorem c2_missing_content (data : Option (List (String × Json))) (env : Env)
    (h : data = none ∨ ∃ d, data = some d ∧ dictLookup d "content" = none) :
    (deobfuscate data env).fst.status = 400 ∧
    respField (deobfuscate data env).fst "success" = some (Json.bool false) ∧
    respField (deobfuscate data env).fst "error" =
      some (Json.str "No content provided") := by
  rcases h with rfl | ⟨d, rfl, hl⟩
  · exact ⟨rfl, rfl, rfl⟩
  · rw [deobfuscate_no_content d env hl]
    exact ⟨rfl, rfl, rfl⟩

/-- C3: the only timeout ever handed to the tool invocation is the fixed
30 seconds, and whenever the tool was invoked and timed out the response
is HTTP 500 with the error message `Process timed out after 30 seconds`. -/
theorem c3_timeout_thm (data : Option (List (String × Json))) (env : Env) :
    (∀ n, (deobfuscate data env).snd.toolTimeout = some n → n = 30) ∧
    ((deobfuscate data env).snd.toolTimeout ≠ none →
      env.run = RunOutcome.timedOut →
      (deobfuscate data env).fst.status = 500 ∧
      respField (deobfuscate data env).fst "error" =
        some (Json.str "Process timed out after 30 seconds")) := by
  refine deobfuscate_cases data env (motive := fun r =>
    (∀ n, r.snd.toolTimeout = some n → n = 30) ∧
    (r.snd.toolTimeout ≠ none → env.run = RunOutcome.timedOut →
      r.fst.status = 500 ∧ respField r.fst "error" =
        some (Json.str "Process timed out after 30 seconds"))) ?_ ?_ ?_ ?_ ?_ ?_
  · intro _
    exact ⟨fun n h => Option.noConfusion h, fun h => absurd rfl h⟩
  · intro _
    exact ⟨fun n h => Option.noConfusion h, fun h => absurd rfl h⟩
  · intro _ _
    exact ⟨fun n h => Option.noConfusion h, fun h => absurd rfl h⟩
  · intro _ _
    constructor
    · intro n h
      rw [runCleanup_toolTimeout, innerTrace_toolTimeout] at h
      cases h
    · intro h
      rw [runCleanup_toolTimeout, innerTrace_toolTimeout] at h
      exact absurd rfl h
  · intro d cmd _ _ _ _ _
    refine runTool_cases env (disOf d) d cmd (innerTrace env) (motive := fun r =>
      (∀ n, r.snd.toolTimeout = some n → n = 30) ∧
      (r.snd.toolTimeout ≠ none → env.run = RunOutcome.timedOut →
        r.fst.status = 500 ∧ respField r.fst "error" =
          some (Json.str "Process timed out after 30 seconds"))) ?_ ?_ ?_ ?_ ?_
    · intro hr
      refine ⟨fun n h => ?_, fun _ _ => ⟨rfl, rfl⟩⟩
      rw [runCleanup_toolTimeout, trace_upd_toolTimeout] at h
      exact (Option.some.inj h).symm
    · intro m hr
      refine ⟨fun n h => ?_, fun _ hrun => ?_⟩
      · rw [runCleanup_toolTimeout, trace_upd_toolTimeout] at h
        exact (Option.some.inj h).symm
      · rw [hr] at hrun
        cases hrun
    · intro rc so se hr hrc
      refine ⟨fun n h => ?_, fun _ hrun => ?_⟩
      · rw [runCleanup_toolTimeout, trace_upd_toolTimeout] at h
        exact (Option.some.inj h).symm
      · rw [hr] at hrun
        cases hrun
    · intro so se oc hr ho
      refine ⟨fun n h => ?_, fun _ hrun => ?_⟩
      · rw [runCleanup_toolTimeout, trace_upd_toolTimeout] at h
        exact (Option.some.inj h).symm
      · rw [hr] at hrun
        cases hrun
    · intro so se hr ho
      refine ⟨fun n h => ?_, fun _ hrun => ?_⟩
      · rw [runCleanup_toolTimeout, trace_upd_toolTimeout] at h
        exact (Option.some.inj h).symm
      · rw [hr] at hrun
        cases hrun
  · intro _ _ _ _
    constructor
    · intro n h
      rw [runCleanup_toolTimeout, innerTrace_toolTimeout] at h
      cases h
    · intro h
      rw [runCleanup_toolTimeout, innerTrace_toolTimeout] at h
      exact absurd rfl h

def envEmptyOut : Env := { envHappy with outputContent := some "" }
def envToolFail : Env := { envHappy with run := RunOutcome.completed 1 "" "boom" }
def envTimedOut : Env := { envHappy with run := RunOutcome.timedOut }

set_option maxHeartbeats 1000000 in
/-- C1 counterexample: with the non-empty input `x` and a tool run that
succeeds but writes an empty output file, the response is HTTP 200 with an
EMPTY `result` field, refuting the claim that a successful response always
carries a non-empty result. -/
theorem c1_counterexample_check :
    (deobfuscate (some dataX) envEmptyOut).fst.status = 200 ∧
    respField (deobfuscate (some dataX) envEmptyOut).fst "result" =
      some (Json.str "") := by
  constructor <;> decide

/-- C1 (amended): whenever POST /deobfuscate answers HTTP 200, the
`format` field matches the requested mode (`disassembly` iff the request
`disassembly` flag is truthy, else `bytecode`), and the `result` field is
the output file content, formatted unless `pretty` is falsy; the result may
be empty when the output file is empty. -/
theorem c1_format_matches (d : List (String × Json)) (env : Env)
    (h200 : (deobfuscate (some d) env).fst.status = 200) :
    respField (deobfuscate (some d) env).fst "format" =
      some (Json.str (if jsonTruthy (dictGet d "disassembly" (Json.bool false))
        then "disassembly" else "bytecode")) ∧
    ∃ out, env.outputContent = some out ∧
      respField (deobfuscate (some d) env).fst "result" =
        some (Json.str (if jsonTruthy (dictGet d "pretty" (Json.bool true))
          then format_output out (jsonTruthy (dictGet d "disassembly" (Json.bool false)))
          else out)) := by
  revert h200
  refine deobfuscate_cases (some d) env (motive := fun r =>
    r.fst.status = 200 →
      respField r.fst "format" =
        some (Json.str (if jsonTruthy (dictGet d "disassembly" (Json.bool false))
          then "disassembly" else "bytecode")) ∧
      ∃ out, env.outputContent = some out ∧
        respField r.fst "result" =
          some (Json.str (if jsonTruthy (dictGet d "pretty" (Json.bool true))
            then format_output out (jsonTruthy (dictGet d "disassembly" (Json.bool false)))
            else out))) ?_ ?_ ?_ ?_ ?_ ?_
  · intro _ h
    simp [resp400] at h
  · intro _ h
    simp [resp500] at h
  · intro _ _ h
    simp [resp500] at h
  · intro _ _ h
    simp [resp500] at h
  · intro d2 cmd hd2 _ _ _ _
    injection hd2 with hd2
    subst hd2
    refine runTool_cases env (disOf d) d cmd (innerTrace env) (motive := fun r =>
      r.fst.status = 200 →
        respField r.fst "format" =
          some (Json.str (if jsonTruthy (dictGet d "disassembly" (Json.bool false))
            then "disassembly" else "bytecode")) ∧
        ∃ out, env.outputContent = some out ∧
          respField r.fst "result" =
            some (Json.str (if jsonTruthy (dictGet d "pretty" (Json.bool true))
              then format_output out (jsonTruthy (dictGet d "disassembly" (Json.bool false)))
              else out))) ?_ ?_ ?_ ?_ ?_
    · intro _ h
      simp [resp500] at h
    · intro m _ h
      simp [resp500] at h
    · intro rc so se _ _ h
      simp [resp500] at h
    · intro so se oc hr ho _
      exact ⟨rfl, oc, ho, rfl⟩
    · intro so se hr ho h
      simp [resp500] at h
  · intro _ _ _ _ h
    simp [resp500] at h

set_option maxHeartbeats 1000000 in
/-- C1 witness: a concrete successful run with non-empty output. -/
theorem c1_witness_check :
    (deobfuscate (some dataX) envHappy).fst.status = 200 ∧
    respField (deobfuscate (some dataX) envHappy).fst "format" =
      some (Json.str (if jsonTruthy (dictGet dataX "disassembly" (Json.bool false))
        then "disassembly" else "bytecode")) :=
  ⟨by decide, (c1_format_matches dataX envHappy (by decide)).1⟩

set_option maxHeartbeats 1000000 in
/-- C4 counterexample: when the tool exits 1 with stderr `boom`, the
error message is `Deobfuscation failed: boom`, not the stderr text `boom`
verbatim, refuting the claim that stderr is surfaced verbatim as the error
message. -/
theorem c4_counterexample_check :
    (deobfuscate (some dataX) envToolFail).fst.status = 500 ∧
    respField (deobfuscate (some dataX) envToolFail).fst "error" =
      some (Json.str "Deobfuscation failed: boom") ∧
    ¬ respField (deobfuscate (some dataX) envToolFail).fst "error" =
      some (Json.str "boom") := by
  refine ⟨by decide, by decide, by decide⟩

/-- C4 (amended): for every invoked run with a nonzero exit code, the
response is HTTP 500 and the error message is the prefix
`Deobfuscation failed: ` followed by the captured stderr stripped of
surrounding whitespace, or `Unknown error` when stderr is empty. -/
theorem c4_nonzero_exit (d : List (String × Json)) (env : Env)
    (rc : Int) (so se : String)
    (hrun : env.run = RunOutcome.completed rc so se) (hrc : rc ≠ 0)
    (hinv : (deobfuscate (some d) env).snd.toolTimeout ≠ none) :
    (deobfuscate (some d) env).fst.status = 500 ∧
    respField (deobfuscate (some d) env).fst "error" =
      some (Json.str ("Deobfuscation failed: " ++
        (if se ≠ "" then String.mk (pyStripL se.data) else "Unknown error"))) := by
  revert hinv
  refine deobfuscate_cases (some d) env (motive := fun r =>
    r.snd.toolTimeout ≠ none →
      r.fst.status = 500 ∧
      respField r.fst "error" =
        some (Json.str ("Deobfuscation failed: " ++
          (if se ≠ "" then String.mk (pyStripL se.data) else "Unknown error")))) ?_ ?_ ?_ ?_ ?_ ?_
  · intro _ h
    exact absurd rfl h
  · intro _ h
    exact absurd rfl h
  · intro _ _ h
    exact absurd rfl h
  · intro _ _ h
    rw [runCleanup_toolTimeout, innerTrace_toolTimeout] at h
    exact absurd rfl h
  · intro d2 cmd hd2 _ _ _ _
    refine runTool_cases env (disOf d2) d2 cmd (innerTrace env) (motive := fun r =>
      r.snd.toolTimeout ≠ none →
        r.fst.status = 500 ∧
        respField r.fst "error" =
          some (Json.str ("Deobfuscation failed: " ++
            (if se ≠ "" then String.mk (pyStripL se.data) else "Unknown error")))) ?_ ?_ ?_ ?_ ?_
    · intro hr
      rw [hr] at hrun
      cases hrun
    · intro m hr
      rw [hr] at hrun
      cases hrun
    · intro rc2 so2 se2 hr hrc2 _
      rw [hr] at hrun
      injection hrun with h1 h2 h3
      subst h1
      subst h2
      subst h3
      exact ⟨rfl, rfl⟩
    · intro so2 se2 oc hr ho _
      rw [hr] at hrun
      injection hrun with h1 h2 h3
      exact absurd h1.symm hrc
    · intro so2 se2 hr ho _
      rw [hr] at hrun
      injection hrun with h1 h2 h3
      exact absurd h1.symm hrc
  · intro _ _ _ _ h
    rw [runCleanup_toolTimeout, innerTrace_toolTimeout] at h
    exact absurd rfl h

set_option maxHeartbeats 1000000 in
/-- C4 witness: the amended statement at a concrete failing run. -/
theorem c4_witness_check :
    (deobfuscate (some dataX) envToolFail).fst.status = 500 ∧
    respField (deobfuscate (some dataX) envToolFail).fst "error" =
      some (Json.str ("Deobfuscation failed: " ++
        (if ("boom" : String) ≠ "" then String.mk (pyStripL ("boom" : String).data)
         else "Unknown error"))) :=
  c4_nonzero_exit dataX envToolFail 1 "" "boom" rfl (by decide) (by decide)

theorem runTool_fst_unlink (env : Env) (b : Bool) (dis : Bool)
    (d : List (String × Json)) (cmd : List String) (t : Trace) :
    (runTool { env with unlinkRaises := b } dis d cmd t).fst =
      (runTool env dis d cmd t).fst := by
  have h1 : ({ env with unlinkRaises := b } : Env).run = env.run := rfl
  have h2 : ({ env with unlinkRaises := b } : Env).outputContent =
      env.outputContent := rfl
  unfold runTool
  rw [h1, h2]
  cases env.run with
  | timedOut => rfl
  | raised m => rfl
  | completed rc so se =>
    dsimp only
    split
    · rfl
    · cases env.outputContent <;> rfl

/-- C5 (amended): for every request whose `content` is a string, once the
input temp file is created the cleanup block runs on every exit path; when
deletion does not raise, the input file is deleted and the output file is
deleted exactly when it exists (i.e. the tool ran and produced it); and
the HTTP response never depends on whether deletion raises, so deletion
failures are swallowed. -/
theorem c5_cleanup (d : List (String × Json)) (env : Env) (s : String)
    (hs : dictLookup d "content" = some (Json.str s)) :
    ((deobfuscate (some d) env).snd.inputFileCreated = true →
      env.unlinkRaises = false →
      (deobfuscate (some d) env).snd.cleanupRan = true ∧
      (deobfuscate (some d) env).snd.inputDeleted = true ∧
      (deobfuscate (some d) env).snd.outputDeleted =
        ((deobfuscate (some d) env).snd.toolTimeout.isSome &&
          env.outputContent.isSome)) ∧
    (∀ b : Bool,
      (deobfuscate (some d) { env with unlinkRaises := b }).fst =
        (deobfuscate (some d) env).fst) := by
  constructor
  · refine deobfuscate_cases (some d) env (motive := fun r =>
      r.snd.inputFileCreated = true → env.unlinkRaises = false →
        r.snd.cleanupRan = true ∧ r.snd.inputDeleted = true ∧
        r.snd.outputDeleted =
          (r.snd.toolTimeout.isSome && env.outputContent.isSome)) ?_ ?_ ?_ ?_ ?_ ?_
    · rintro (h | ⟨d2, hd2, hl⟩)
      · cases h
      · injection hd2 with hd2
        subst hd2
        rw [hl] at hs
        cases hs
    · intro _ h
      cases h
    · rintro ⟨d2, v, hd2, hl, hv⟩ _
      injection hd2 with hd2
      subst hd2
      rw [hl] at hs
      injection hs with hs
      exact absurd hs (hv s)
    · intro _ _ _ hU
      refine ⟨runCleanup_cleanupRan env false _, (runCleanup_deletes env false _ hU).1, ?_⟩
      rw [(runCleanup_deletes env false _ hU).2, runCleanup_toolTimeout,
          innerTrace_toolTimeout]
      rfl
    · intro d2 cmd _ _ _ _ _
      rw [runTool_snd]
      intro _ hU
      refine ⟨runCleanup_cleanupRan env _ _, (runCleanup_deletes env _ _ hU).1, ?_⟩
      rw [(runCleanup_deletes env _ _ hU).2, runCleanup_toolTimeout,
          trace_upd_toolTimeout]
      rfl
    · intro _ _ _ _ _ hU
      refine ⟨runCleanup_cleanupRan env false _, (runCleanup_deletes env false _ hU).1, ?_⟩
      rw [(runCleanup_deletes env false _ hU).2, runCleanup_toolTimeout,
          innerTrace_toolTimeout]
      rfl
  · intro b
    refine deobfuscate_cases (some d) env (motive := fun r =>
      (deobfuscate (some d) { env with unlinkRaises := b }).fst = r.fst) ?_ ?_ ?_ ?_ ?_ ?_
    · rintro (h | ⟨d2, hd2, hl⟩)
      · cases h
      · injection hd2 with hd2
        subst hd2
        rw [hl] at hs
        cases hs
    · intro hm2
      rw [deobfuscate_no_moonsec d { env with unlinkRaises := b } (Json.str s) hs hm2]
    · rintro ⟨d2, v, hd2, hl, hv⟩ _
      injection hd2 with hd2
      subst hd2
      rw [hl] at hs
      injection hs with hs
      exact absurd hs (hv s)
    · intro hm hb
      rw [deobfuscate_str d { env with unlinkRaises := b } s hs hm,
          deobfuscateInner_buildFail { env with unlinkRaises := b } d hb]
    · rintro d2 cmd hd2 _ hm hb2 (⟨exe, hf, rfl⟩ | ⟨hf, hdll, rfl⟩)
      · injection hd2 with hd2
        subst hd2
        rw [deobfuscate_str d { env with unlinkRaises := b } s hs hm,
            deobfuscateInner_exe { env with unlinkRaises := b } d exe hb2 hf,
            show innerTrace { env with unlinkRaises := b } = innerTrace env from rfl,
            runTool_fst_unlink]
      · injection hd2 with hd2
        subst hd2
        rw [deobfuscate_str d { env with unlinkRaises := b } s hs hm,
            deobfuscateInner_dll { env with unlinkRaises := b } d hb2 hf hdll,
            show innerTrace { env with unlinkRaises := b } = innerTrace env from rfl,
            runTool_fst_unlink]
    · intro hm hb2 hf hdll
      rw [deobfuscate_str d { env with unlinkRaises := b } s hs hm,
          deobfuscateInner_noExe { env with unlinkRaises := b } d hb2 hf hdll]

set_option maxHeartbeats 1000000 in
/-- C5 counterexample: a request whose `content` is the number 5 reaches
temp-file creation (the input scratch file is created), yet the cleanup
never runs and the input file is never deleted, even though deletion would
not have failed; this refutes deletion on every exit path. -/
theorem c5_counterexample_check :
    (deobfuscate (some [("content", Json.num 5)]) envHappy).snd.inputFileCreated = true ∧
    (deobfuscate (some [("content", Json.num 5)]) envHappy).snd.cleanupRan = false ∧
    (deobfuscate (some [("content", Json.num 5)]) envHappy).snd.inputDeleted = false ∧
    envHappy.unlinkRaises = false := by
  refine ⟨by decide, by decide, by decide, by decide⟩

set_option maxHeartbeats 1000000 in
/-- C5 witness: cleanup on the happy path at a concrete request. -/
theorem c5_witness_check :
    (deobfuscate (some dataX) envHappy).snd.cleanupRan = true ∧
    (deobfuscate (some dataX) envHappy).snd.inputDeleted = true :=
  ⟨((c5_cleanup dataX envHappy "x" rfl).1 (by decide) rfl).1,
   ((c5_cleanup dataX envHappy "x" rfl).1 (by decide) rfl).2.1⟩

def envNoExe : Env :=
  { fileExists := fun p => p == MOONSEC_PATH || p == BUILD_PATH,
    buildSucceeds := true, run := RunOutcome.completed 0 "" "",
    outputContent := none, unlinkRaises := false }

set_option maxHeartbeats 1000000 in
/-- C6 counterexample: in an environment where the build output directory
exists but no candidate executable and no dll exists, the request fails
with 500 `Moonsec executable not found. Try building first.` and no build
is attempted, refuting the claim that absence of all candidates triggers
the build. -/
theorem c6_counterexample_check :
    (∀ p ∈ possible_paths, envNoExe.fileExists p = false) ∧
    envNoExe.fileExists dll_path = false ∧
    envNoExe.fileExists BUILD_PATH = true ∧
    (deobfuscate (some dataX) envNoExe).snd.buildAttempts = 0 ∧
    (deobfuscate (some dataX) envNoExe).fst.status = 500 ∧
    respField (deobfuscate (some dataX) envNoExe).fst "error" =
      some (Json.str "Moonsec executable not found. Try building first.") := by
  refine ⟨by decide, by decide, by decide, by decide, by decide, by decide⟩

/-- C6 (amended): per request at most one build is attempted; no build is
attempted when the build output directory exists; a failed build attempt
terminates the request with 500 `Failed to build Moonsec tool`; and
whenever the tool is invoked its command uses the first existing candidate
path, or `dotnet` with the dll (which then exists) when no candidate
exists. -/
theorem c6_locator_build (d : List (String × Json)) (env : Env) :
    ((deobfuscate (some d) env).snd.buildAttempts ≤ 1) ∧
    (env.fileExists BUILD_PATH = true →
      (deobfuscate (some d) env).snd.buildAttempts = 0) ∧
    ((deobfuscate (some d) env).snd.buildAttempts = 1 →
      env.buildSucceeds = false →
      (deobfuscate (some d) env).fst.status = 500 ∧
      respField (deobfuscate (some d) env).fst "error" =
        some (Json.str "Failed to build Moonsec tool")) ∧
    (∀ cmd, (deobfuscate (some d) env).snd.toolCmd = some cmd →
      ((∃ exe, possible_paths.find? env.fileExists = some exe ∧
         env.fileExists exe = true ∧ cmd = exeCmd exe d) ∨
       (possible_paths.find? env.fileExists = none ∧
         env.fileExists dll_path = true ∧ cmd = dllCmd d))) := by
  refine deobfuscate_cases (some d) env (motive := fun r =>
    (r.snd.buildAttempts ≤ 1) ∧
    (env.fileExists BUILD_PATH = true → r.snd.buildAttempts = 0) ∧
    (r.snd.buildAttempts = 1 → env.buildSucceeds = false →
      r.fst.status = 500 ∧ respField r.fst "error" =
        some (Json.str "Failed to build Moonsec tool")) ∧
    (∀ cmd, r.snd.toolCmd = some cmd →
      ((∃ exe, possible_paths.find? env.fileExists = some exe ∧
         env.fileExists exe = true ∧ cmd = exeCmd exe d) ∨
       (possible_paths.find? env.fileExists = none ∧
         env.fileExists dll_path = true ∧ cmd = dllCmd d)))) ?_ ?_ ?_ ?_ ?_ ?_
  · intro _
    exact ⟨by decide, fun _ => rfl, fun h _ => absurd h (by decide),
      fun cmd hcmd => Option.noConfusion hcmd⟩
  · intro _
    exact ⟨by decide, fun _ => rfl, fun h _ => absurd h (by decide),
      fun cmd hcmd => Option.noConfusion hcmd⟩
  · intro _ _
    exact ⟨by decide, fun _ => rfl, fun h _ => absurd h (by decide),
      fun cmd hcmd => Option.noConfusion hcmd⟩
  · intro hm hb
    have hparts := Bool.and_eq_true_iff.mp hb
    have hfe : env.fileExists BUILD_PATH = false := by
      have := hparts.1
      simpa using this
    refine ⟨?_, ?_, ?_, ?_⟩
    · rw [runCleanup_buildAttempts, innerTrace_buildAttempts, hfe]
      decide
    · intro hT
      rw [hT] at hfe
      cases hfe
    · intro _ _
      exact ⟨rfl, rfl⟩
    · intro cmd hcmd
      rw [runCleanup_toolCmd, innerTrace_toolCmd] at hcmd
      exact Option.noConfusion hcmd
  · intro d2 cmd hd2 _ hm hb2 hdisj
    injection hd2 with hd2
    subst hd2
    rw [runTool_snd]
    refine ⟨?_, ?_, ?_, ?_⟩
    · rw [runCleanup_buildAttempts, trace_upd_buildAttempts, innerTrace_buildAttempts]
      by_cases hfe : env.fileExists BUILD_PATH <;> simp [hfe]
    · intro hT
      rw [runCleanup_buildAttempts, trace_upd_buildAttempts,
          innerTrace_buildAttempts, hT]
      simp
    · intro h1 hbs
      rw [runCleanup_buildAttempts, trace_upd_buildAttempts,
          innerTrace_buildAttempts] at h1
      by_cases hfe : env.fileExists BUILD_PATH
      · rw [hfe] at h1
        simp at h1
      · have hfe2 : env.fileExists BUILD_PATH = false := by simpa using hfe
        rw [hfe2, hbs] at hb2
        simp at hb2
    · intro cmd2 hcmd
      rw [runCleanup_toolCmd, trace_upd_toolCmd] at hcmd
      injection hcmd with hcmd
      subst hcmd
      rcases hdisj with ⟨exe, hf, rfl⟩ | ⟨hf, hdll, rfl⟩
      · exact Or.inl ⟨exe, hf, List.find?_some hf, rfl⟩
      · exact Or.inr ⟨hf, hdll, rfl⟩
  · intro hm hb2 hf hdll
    refine ⟨?_, ?_, ?_, ?_⟩
    · rw [runCleanup_buildAttempts, innerTrace_buildAttempts]
      by_cases hfe : env.fileExists BUILD_PATH <;> simp [hfe]
    · intro hT
      rw [runCleanup_buildAttempts, innerTrace_buildAttempts, hT]
      simp
    · intro h1 hbs
      rw [runCleanup_buildAttempts, innerTrace_buildAttempts] at h1
      by_cases hfe : env.fileExists BUILD_PATH
      · rw [hfe] at h1
        simp at h1
      · have hfe2 : env.fileExists BUILD_PATH = false := by simpa using hfe
        rw [hfe2, hbs] at hb2
        simp at hb2
    · intro cmd hcmd
      rw [runCleanup_toolCmd, innerTrace_toolCmd] at hcmd
      exact Option.noConfusion hcmd

/-- C6 witness: a prebuilt environment performs no build attempt. -/
theorem c6_witness_check :
    (deobfuscate (some dataX) envHappy).snd.buildAttempts = 0 :=
  (c6_locator_build dataX envHappy).2.1 rfl

/-- C3 witness: a concrete timed-out run yields the 500 timeout answer. -/
theorem c3_witness_check :
    (deobfuscate (some dataX) envTimedOut).fst.status = 500 ∧
    respField (deobfuscate (some dataX) envTimedOut).fst "error" =
      some (Json.str "Process timed out after 30 seconds") :=
  (c3_timeout_thm (some dataX) envTimedOut).2 (by decide) rfl

/-- C2 witness: the concrete null body against the all-good environment. -/
theorem c2_witness_check :
    (deobfuscate none envHappy).fst.status = 400 ∧
    respField (deobfuscate none envHappy).fst "success" = some (Json.bool false) ∧
    respField (deobfuscate none envHappy).fst "error" =
      some (Json.str "No content provided") :=
  c2_missing_content none envHappy (Or.inl rfl)

/-- C10 witness: a null body is rejected with 400. -/
theorem c10_witness_check :
    (deobfuscate none envHappy).fst.status = 400 :=
  (c10_validation_iff.1 none envHappy).mpr (Or.inl rfl)

/-! ## Formatter claims -/

/-- C7: `format_output` in disassembly mode is idempotent: applying it
twice yields the same result as applying it once, for every input
string. -/
theorem c7_disassembly_idem (s : String) :
    format_output (format_output s true) true = format_output s true := by
  show String.mk (formatOutputL (formatOutputL s.data true) true) =
    String.mk (formatOutputL s.data true)
  exact congrArg String.mk (formatOutputL_dis_second s.data)

/-- C8: `format_output` in bytecode mode converges after one pass:
applying it a second time to its own output changes nothing, for every
input string, despite the break insertion after `;` and around braces. -/
theorem c8_bytecode_converges (s : String) :
    format_output (format_output s false) false = format_output s false := by
  show String.mk (formatOutputL (formatOutputL s.data false) false) =
    String.mk (formatOutputL s.data false)
  exact congrArg String.mk (formatOutputL_bytecode_second s.data)

/-- The apostrophe character. -/
def apos : Char := Char.ofNat 39

/-- The text of the Lua program `print` applied to the two-character
string `x;y`. -/
def c9_input : String :=
  String.mk ['p', 'r', 'i', 'n', 't', '(', apos, 'x', ';', 'y', apos, ')']

/-- The same text with a line break inserted after the semicolon that sits
inside the string literal. -/
def c9_expected : String :=
  String.mk ['p', 'r', 'i', 'n', 't', '(', apos, 'x', ';', '\n', 'y', apos, ')']

/-- C9: on the input text `print` of `x;y` (semicolon inside a Lua string
literal), the bytecode formatter inserts a line break after that
semicolon: the formatter is not aware of string literals. -/
theorem c9_string_semicolon_break :
    format_output c9_input false = c9_expected := by decide
